import Mathlib

/-!
Verification of the task template and spawn-preparation core
(crates/task/src/lib.rs) of the repository.

The Rust data types and functions are shallowly embedded:
hash maps become association lists with unique keys maintained by
replacing inserts, PathBuf becomes String, and fallible operations
return Option. External library behaviour (the substitution routine of
the subst crate, the relaxed JSON field-default parsing of serde) is
modelled from the specification and marked as such in doc comments.
-/

set_option autoImplicit false
set_option linter.unnecessarySeqFocus false

universe u v

/-! ## Association list maps (model of collections::HashMap) -/

/-- First value bound to a key in an association list, or none.
Models HashMap lookup, where keys are unique. -/
def alLookup {κ : Type u} {α : Type v} [DecidableEq κ] : List (κ × α) → κ → Option α
  | [], _ => none
  | (k1, v1) :: rest, k => if k1 = k then some v1 else alLookup rest k

/-- Insert a binding, replacing the value in place when the key is
already bound. Models HashMap insert (without its return value). -/
def alInsert {κ : Type u} {α : Type v} [DecidableEq κ] : List (κ × α) → κ → α → List (κ × α)
  | [], k, v => [(k, v)]
  | (k1, v1) :: rest, k, v =>
    if k1 = k then (k, v) :: rest else (k1, v1) :: alInsert rest k v

/-- Insert a binding and also return the value previously bound to the
key, if any. Models the full HashMap insert signature. -/
def alInsertRet {κ : Type u} {α : Type v} [DecidableEq κ] :
    List (κ × α) → κ → α → Option α × List (κ × α)
  | [], k, v => (none, [(k, v)])
  | (k1, v1) :: rest, k, v =>
    if k1 = k then (some v1, (k, v) :: rest)
    else
      let p := alInsertRet rest k v
      (p.1, (k1, v1) :: p.2)

/-- Insert every pair of the second list into the first, one at a time,
incoming values winning on key collision. Models HashMap extend and
collecting an iterator of pairs into a HashMap. -/
def alExtend {κ : Type u} {α : Type v} [DecidableEq κ] :
    List (κ × α) → List (κ × α) → List (κ × α)
  | a, [] => a
  | a, (k, v) :: rest => alExtend (alInsert a k v) rest

/-- The keys of an association list are pairwise distinct. -/
def alNoDupKeys {κ : Type u} {α : Type v} (m : List (κ × α)) : Prop :=
  (m.map Prod.fst).Nodup

/-! ## Variable model (VariableName, TaskVariables) -/

/-- Variables available for use in a TaskContext when a task gets turned
into a real command (enum VariableName in the source). -/
inductive VariableName where
  | File
  | WorktreeRoot
  | Symbol
  | Row
  | Column
  | SelectedText
  | Custom (s : String)
deriving DecidableEq, Repr

/-- Rendering of a VariableName to its reserved environment key, from
the Display impl in the source: a fixed ZED_ text followed by the
variant name, or by the custom name for Custom. -/
def VariableName.toString : VariableName → String
  | .File => "ZED_FILE"
  | .WorktreeRoot => "ZED_WORKTREE_ROOT"
  | .Symbol => "ZED_SYMBOL"
  | .Row => "ZED_ROW"
  | .Column => "ZED_COLUMN"
  | .SelectedText => "ZED_SELECTED_TEXT"
  | .Custom s => "ZED_" ++ s

/-- Generates a dollar-variable string value to be used in templates;
Custom variables are wrapped in braces (template_value in the source). -/
def VariableName.template_value (v : VariableName) : String :=
  match v with
  | .Custom _ => "$\x7b" ++ v.toString ++ "\x7d"
  | _ => "$" ++ v.toString

/-- True on the six closed enum members, false on Custom. -/
def VariableName.isClosedVariant : VariableName → Bool
  | .Custom _ => false
  | _ => true

/-- Task identifier, unique within the application (struct TaskId). -/
structure TaskId where
  val : String
deriving DecidableEq, Repr

/-- Container for predefined environment variables that describe the
state at the time the task was spawned (struct TaskVariables, a
HashMap from VariableName to String). -/
structure TaskVariables where
  entries : List (VariableName × String)
deriving DecidableEq, Repr

/-- Converts the container into a map of environment variables and
their values (into_env_variables in the source): each variable name is
rendered through its Display and the pairs are collected into a map. -/
def TaskVariables.into_env_variables (tv : TaskVariables) : List (String × String) :=
  alExtend [] (tv.entries.map (fun p => (p.1.toString, p.2)))

/-- Inserts another variable into the container, overwriting the
existing one if it already exists, in which case the old value is
returned (TaskVariables::insert). -/
def TaskVariables.insert (tv : TaskVariables) (variable_ : VariableName) (value : String) :
    Option String × TaskVariables :=
  let p := alInsertRet tv.entries variable_ value
  (p.1, ⟨p.2⟩)

/-- Extends the container with another one, overwriting the existing
variables on collision (TaskVariables::extend, via HashMap extend). -/
def TaskVariables.extend (tv other : TaskVariables) : TaskVariables :=
  ⟨alExtend tv.entries other.entries⟩

/-! ## Task context and declarative definitions -/

/-- Runtime context of task execution (struct TaskContext): an optional
working directory and a snapshot of task variables. -/
structure TaskContext where
  cwd : Option String := none
  task_variables : TaskVariables := ⟨[]⟩
deriving DecidableEq, Repr

/-- What to do with the terminal pane and tab after the command was
started (enum RevealStrategy). -/
inductive RevealStrategy where
  | Always
  | Never
deriving DecidableEq, Repr

/-- The derived Default of RevealStrategy: the variant marked default
in the source is Always. -/
def RevealStrategy.default : RevealStrategy := .Always

/-- Static task definition from the tasks config file (struct
Definition). -/
structure Definition where
  label : String
  command : String
  args : List String
  env : List (String × String)
  cwd : Option String
  use_new_terminal : Bool
  allow_concurrent_runs : Bool
  reveal : RevealStrategy
deriving DecidableEq, Repr

/-- The derived Default of Definition: every field takes the default of
its type (empty strings and containers, none, false, Always). -/
def Definition.default : Definition :=
  { label := ""
    command := ""
    args := []
    env := []
    cwd := none
    use_new_terminal := false
    allow_concurrent_runs := false
    reveal := RevealStrategy.default }

/-- All information needed to spawn a new terminal tab for a task
(struct SpawnInTerminal). -/
structure SpawnInTerminal where
  id : TaskId
  label : String
  command : String
  args : List String
  cwd : Option String
  env : List (String × String)
  use_new_terminal : Bool
  allow_concurrent_runs : Bool
  reveal : RevealStrategy
deriving DecidableEq, Repr

/-- A task template: a TaskId paired with a Definition (struct
TaskTemplate). -/
structure TaskTemplate where
  id : TaskId
  definition : Definition
deriving DecidableEq, Repr

/-- The one-shot constructor (TaskTemplate::oneshot): id, label and
command are all set verbatim to the prompt, every other field comes
from the Definition default. -/
def TaskTemplate.oneshot (prompt : String) : TaskTemplate :=
  { id := ⟨prompt⟩
    definition :=
      { Definition.default with
        label := prompt
        command := prompt } }

/-! ## Substitution (external subst crate) -/

/-- Left brace character, written by code point. -/
def braceL : Char := Char.ofNat 123

/-- Right brace character, written by code point. -/
def braceR : Char := Char.ofNat 125

/-- Modelled from the spec: characters allowed in a variable name of a
substitution template (alphanumeric characters and underscores). -/
def varChar (c : Char) : Bool := c.isAlphanum || c = '_'

/-- Longest run of variable-name characters at the head of the list,
paired with the remainder. -/
def spanVarName : List Char → List Char × List Char
  | [] => ([], [])
  | c :: cs =>
    if varChar c then
      let p := spanVarName cs
      (c :: p.1, p.2)
    else ([], c :: cs)

/-- Characters up to the first right brace, paired with the remainder
after it; none when no right brace occurs. -/
def breakAtBraceR : List Char → Option (List Char × List Char)
  | [] => none
  | c :: cs =>
    if c = braceR then some ([], cs)
    else (breakAtBraceR cs).map (fun p => (c :: p.1, p.2))

/-- Modelled from the spec: the substitution routine of the external
subst crate used by prepare_exec. Scans the template, replaces each
dollar-name or dollar-brace-name reference by the value bound to that
name in the map, and fails (none) when a referenced name is unbound or
the reference is malformed; all other characters are copied verbatim.
Fuel bounds the recursion and is always sufficient at one more than the
input length. -/
def substituteCore (env : List (String × String)) : Nat → List Char → Option (List Char)
  | 0, _ => none
  | _ + 1, [] => some []
  | fuel + 1, c :: rest =>
    if c = '$' then
      match rest with
      | [] => none
      | c2 :: rest2 =>
        if c2 = braceL then
          match breakAtBraceR rest2 with
          | none => none
          | some (nameChars, afterBrace) =>
            match alLookup env (String.mk nameChars) with
            | none => none
            | some v => (substituteCore env fuel afterBrace).map (fun out => v.data ++ out)
        else
          let p := spanVarName (c2 :: rest2)
          if p.1.isEmpty then none
          else
            match alLookup env (String.mk p.1) with
            | none => none
            | some v => (substituteCore env fuel p.2).map (fun out => v.data ++ out)
    else
      (substituteCore env fuel rest).map (fun out => c :: out)

/-- Modelled from the spec: subst::substitute on a whole string, with
failure rendered as none (the call site in the source discards the
error through ok()). -/
def substitute (s : String) (env : List (String × String)) : Option String :=
  (substituteCore env (s.length + 1) s.data).map (fun l => String.mk l)

/-! ## Spawn preparation -/

/-- The spawn preparer (Task::prepare_exec for TaskTemplate in the
source): renders the task variables to an environment map, resolves the
cwd template against it with a silent fallback to the context cwd on
absence or on substitution failure, layers the rendered variables on
top of the definition environment, and assembles the spawn record. -/
def TaskTemplate.prepare_exec (t : TaskTemplate) (cx : TaskContext) : Option SpawnInTerminal :=
  let task_variables := cx.task_variables.into_env_variables
  let cwd :=
    (t.definition.cwd.bind (fun path => substitute path task_variables)).or cx.cwd
  let definition_env := alExtend t.definition.env task_variables
  some
    { id := t.id
      cwd := cwd
      use_new_terminal := t.definition.use_new_terminal
      allow_concurrent_runs := t.definition.allow_concurrent_runs
      label := t.definition.label
      command := t.definition.command
      args := t.definition.args
      reveal := t.definition.reveal
      env := definition_env }

/-- Task::name for TaskTemplate: the definition label. -/
def TaskTemplate.name (t : TaskTemplate) : String := t.definition.label

/-- Task::cwd for TaskTemplate: the definition cwd template. -/
def TaskTemplate.cwdField (t : TaskTemplate) : Option String := t.definition.cwd

/-! ## Parsing of partial definition records (external serde) -/

/-- Modelled from the spec: a partial definition record as read from
the relaxed JSON config, each field possibly absent. -/
structure PartialDefinitionRecord where
  label : Option String := none
  command : Option String := none
  args : Option (List String) := none
  env : Option (List (String × String)) := none
  cwd : Option (Option String) := none
  use_new_terminal : Option Bool := none
  allow_concurrent_runs : Option Bool := none
  reveal : Option RevealStrategy := none
deriving DecidableEq, Repr

/-- Modelled from the spec: serde parsing of a Definition record. The
label and command fields are required; every other field carries a
field-level default attribute and falls back to the default of its
type when absent. -/
def parseDefinition (r : PartialDefinitionRecord) : Option Definition :=
  match r.label, r.command with
  | some l, some c =>
    some
      { label := l
        command := c
        args := r.args.getD []
        env := r.env.getD []
        cwd := r.cwd.getD none
        use_new_terminal := r.use_new_terminal.getD false
        allow_concurrent_runs := r.allow_concurrent_runs.getD false
        reveal := r.reveal.getD RevealStrategy.default }
  | _, _ => none

/-! ## Association list lemmas -/

theorem alLookup_alInsert {κ : Type u} {α : Type v} [DecidableEq κ] (m : List (κ × α)) (k k2 : κ) (v : α) :
    alLookup (alInsert m k v) k2 = if k = k2 then some v else alLookup m k2 := by
  induction m with
  | nil => simp [alInsert, alLookup]
  | cons hd tl ih =>
    obtain ⟨k1, v1⟩ := hd
    by_cases h1 : k1 = k <;> by_cases h2 : k = k2 <;>
      simp_all [alInsert, alLookup]

theorem mem_keys_alInsert {κ : Type u} {α : Type v} [DecidableEq κ] (m : List (κ × α)) (k k2 : κ) (v : α) :
    k2 ∈ (alInsert m k v).map Prod.fst ↔ k2 = k ∨ k2 ∈ m.map Prod.fst := by
  induction m with
  | nil => simp [alInsert]
  | cons hd tl ih =>
    obtain ⟨k1, v1⟩ := hd
    by_cases h1 : k1 = k <;> simp_all [alInsert] <;> tauto

theorem alNoDupKeys_alInsert {κ : Type u} {α : Type v} [DecidableEq κ] (m : List (κ × α)) (k : κ) (v : α)
    (h : alNoDupKeys m) : alNoDupKeys (alInsert m k v) := by
  induction m with
  | nil => simp [alInsert, alNoDupKeys]
  | cons hd tl ih =>
    obtain ⟨k1, v1⟩ := hd
    simp only [alNoDupKeys, List.map_cons, List.nodup_cons] at h
    by_cases h1 : k1 = k
    · subst h1
      simpa [alInsert, alNoDupKeys] using h
    · have := ih h.2
      simp only [alInsert, if_neg h1, alNoDupKeys, List.map_cons, List.nodup_cons]
      refine ⟨fun hmem => ?_, this⟩
      rcases (mem_keys_alInsert tl k k1 v).mp hmem with h2 | h2
      · exact h1 h2
      · exact h.1 h2

theorem alLookup_eq_none_of_not_mem {κ : Type u} {α : Type v} [DecidableEq κ] (m : List (κ × α)) (k : κ)
    (h : k ∉ m.map Prod.fst) : alLookup m k = none := by
  induction m with
  | nil => rfl
  | cons hd tl ih =>
    obtain ⟨k1, v1⟩ := hd
    simp only [List.map_cons, List.mem_cons, not_or] at h
    have h1 : k1 ≠ k := fun hh => h.1 hh.symm
    simp [alLookup, h1, ih h.2]

theorem alNoDupKeys_alExtend {κ : Type u} {α : Type v} [DecidableEq κ] (a b : List (κ × α))
    (h : alNoDupKeys a) : alNoDupKeys (alExtend a b) := by
  induction b generalizing a with
  | nil => exact h
  | cons hd tl ih =>
    obtain ⟨k, v⟩ := hd
    exact ih _ (alNoDupKeys_alInsert a k v h)

theorem alLookup_alExtend {κ : Type u} {α : Type v} [DecidableEq κ] (a b : List (κ × α)) (k : κ)
    (hb : alNoDupKeys b) :
    alLookup (alExtend a b) k = (alLookup b k).or (alLookup a k) := by
  induction b generalizing a with
  | nil => simp [alExtend, alLookup]
  | cons hd tl ih =>
    obtain ⟨k1, v1⟩ := hd
    simp only [alNoDupKeys, List.map_cons, List.nodup_cons] at hb
    show alLookup (alExtend (alInsert a k1 v1) tl) k = _
    rw [ih _ hb.2]
    by_cases h2 : k1 = k
    · subst h2
      rw [alLookup_eq_none_of_not_mem tl k1 hb.1]
      simp [alLookup, alLookup_alInsert]
    · simp [alLookup, h2, alLookup_alInsert]

theorem alInsertRet_snd {κ : Type u} {α : Type v} [DecidableEq κ] (m : List (κ × α)) (k : κ) (v : α) :
    (alInsertRet m k v).2 = alInsert m k v := by
  induction m with
  | nil => rfl
  | cons hd tl ih =>
    obtain ⟨k1, v1⟩ := hd
    by_cases h1 : k1 = k <;> simp_all [alInsertRet, alInsert]

theorem alInsertRet_fst {κ : Type u} {α : Type v} [DecidableEq κ] (m : List (κ × α)) (k : κ) (v : α) :
    (alInsertRet m k v).1 = alLookup m k := by
  induction m with
  | nil => rfl
  | cons hd tl ih =>
    obtain ⟨k1, v1⟩ := hd
    by_cases h1 : k1 = k <;> simp_all [alInsertRet, alLookup]

theorem alLookup_isSome_iff_mem {κ : Type u} {α : Type v} [DecidableEq κ] (m : List (κ × α)) (k : κ) :
    (alLookup m k).isSome ↔ ∃ w, (k, w) ∈ m := by
  induction m with
  | nil => simp [alLookup]
  | cons hd tl ih =>
    obtain ⟨k1, v1⟩ := hd
    by_cases h1 : k1 = k
    · subst h1
      simp [alLookup]
    · simp [alLookup, h1, ih]
      constructor
      · rintro ⟨w, hw⟩
        exact ⟨w, Or.inr hw⟩
      · rintro ⟨w, hw | hw⟩
        · exact absurd hw.1.symm h1
        · exact ⟨w, hw⟩

theorem alExtend_eq_foldl {κ : Type u} {α : Type v} [DecidableEq κ] (a b : List (κ × α)) :
    alExtend a b = b.foldl (fun m kv => (alInsertRet m kv.1 kv.2).2) a := by
  induction b generalizing a with
  | nil => rfl
  | cons hd tl ih =>
    obtain ⟨k, v⟩ := hd
    show alExtend (alInsert a k v) tl = _
    rw [ih, List.foldl_cons, alInsertRet_snd]

/-- The rendered environment map of a TaskVariables container has
pairwise distinct keys: it is built by replacing inserts from empty. -/
theorem into_env_variables_nodup (tv : TaskVariables) :
    alNoDupKeys tv.into_env_variables :=
  alNoDupKeys_alExtend _ _ (by simp [alNoDupKeys])

/-! ## Helper equations for the spawn preparer -/

/-- The environment of the prepared spawn record: the definition
environment extended by the rendered task variables. -/
theorem prepare_exec_env_eq (t : TaskTemplate) (cx : TaskContext) :
    (t.prepare_exec cx).map SpawnInTerminal.env =
      some (alExtend t.definition.env cx.task_variables.into_env_variables) := rfl

/-- The cwd of the prepared spawn record: the substituted definition
cwd when that succeeds, otherwise the context cwd. -/
theorem prepare_exec_cwd_eq (t : TaskTemplate) (cx : TaskContext) :
    (t.prepare_exec cx).map SpawnInTerminal.cwd =
      some ((t.definition.cwd.bind
        (fun path => substitute path cx.task_variables.into_env_variables)).or cx.cwd) := rfl

/-! ## Concrete inputs used by claim theorems -/

/-- Template whose cwd references a variable bound by no task variable. -/
def c1Template : TaskTemplate :=
  { id := ⟨"c1"⟩
    definition := { Definition.default with cwd := some "$ZED_UNBOUND/build" } }

/-- Context with a working directory override and no task variables. -/
def c1Context : TaskContext :=
  { cwd := some "/fallback", task_variables := ⟨[]⟩ }

/-- Template with a static environment entry under a reserved key. -/
def c2Template : TaskTemplate :=
  { id := ⟨"c2"⟩
    definition := { Definition.default with env := [("ZED_FILE", "1")] } }

/-- Context whose task variables render to the same reserved key. -/
def c2Context : TaskContext :=
  { cwd := none, task_variables := ⟨[(VariableName.File, "2")]⟩ }

/-- The spawn record produced for the environment precedence inputs. -/
def c2Spawn : SpawnInTerminal :=
  { id := ⟨"c2"⟩
    label := ""
    command := ""
    args := []
    cwd := none
    env := [("ZED_FILE", "2")]
    use_new_terminal := false
    allow_concurrent_runs := false
    reveal := RevealStrategy.Always }

/-- Template whose cwd is the literal template of the claim. -/
def c3Template : TaskTemplate :=
  { id := ⟨"c3"⟩
    definition := { Definition.default with cwd := some "$WorktreeRoot/build" } }

/-- Template whose cwd uses the rendered template value of
WorktreeRoot, that is its reserved environment key. -/
def c3TemplateAmended : TaskTemplate :=
  { id := ⟨"c3"⟩
    definition :=
      { Definition.default with
        cwd := some (VariableName.WorktreeRoot.template_value ++ "/build") } }

/-- Context binding WorktreeRoot to the repository root. -/
def c3Context : TaskContext :=
  { cwd := none, task_variables := ⟨[(VariableName.WorktreeRoot, "/repo")]⟩ }

/-- Template without a cwd override. -/
def c4Template : TaskTemplate :=
  { id := ⟨"c4"⟩
    definition := { Definition.default with label := "ls", command := "ls" } }

/-- Context with a working directory override. -/
def c4Context : TaskContext :=
  { cwd := some "/workdir", task_variables := ⟨[]⟩ }

/-- Template whose cwd references an absent variable. -/
def c9Template : TaskTemplate :=
  { id := ⟨"c9"⟩
    definition := { Definition.default with cwd := some "$ZED_ABSENT" } }

/-- Context with a working directory override and no task variables. -/
def c9Context : TaskContext :=
  { cwd := some "/fb", task_variables := ⟨[]⟩ }

/-! ## Claim theorems -/

/-- C1: the claim states that a cwd template referencing a variable not
present in the task variables makes prepare fail with a substitution
error and produce no spawn record. The code does the opposite: the
substitution failure is discarded, the cwd silently falls back to the
context cwd, and a spawn record is still produced. This theorem
evaluates the code at such a failing input. -/
theorem prepare_exec_swallows_substitution_failure :
    substitute "$ZED_UNBOUND/build" c1Context.task_variables.into_env_variables = none
    ∧ c1Template.prepare_exec c1Context ≠ none
    ∧ (c1Template.prepare_exec c1Context).map SpawnInTerminal.cwd = some (some "/fallback") := by
  decide

/-- C2: the final environment starts from the definition environment
and layers the rendered task-variable map on top, so any key bound in
the rendered map takes its value from there, and any other key keeps
its definition value. -/
theorem prepare_exec_env_task_variables_precedence (t : TaskTemplate) (cx : TaskContext)
    (s : SpawnInTerminal) (hs : t.prepare_exec cx = some s) (k : String) :
    (∀ v, alLookup cx.task_variables.into_env_variables k = some v →
        alLookup s.env k = some v)
    ∧ (alLookup cx.task_variables.into_env_variables k = none →
        alLookup s.env k = alLookup t.definition.env k) := by
  have h1 := prepare_exec_env_eq t cx
  rw [hs] at h1
  have h2 : s.env = alExtend t.definition.env cx.task_variables.into_env_variables := by
    simpa using h1
  rw [h2, alLookup_alExtend _ _ k (into_env_variables_nodup _)]
  constructor
  · intro v hv
    rw [hv]
    rfl
  · intro hnone
    rw [hnone]
    rfl

/-- Witness for C2: a definition environment entry and a task variable
colliding on the reserved key ZED_FILE yield the task-variable value. -/
theorem prepare_exec_env_task_variables_precedence_witness :
    alLookup c2Spawn.env "ZED_FILE" = some "2" :=
  (prepare_exec_env_task_variables_precedence c2Template c2Context c2Spawn
    (by decide) "ZED_FILE").1 "2" (by decide)

/-- C3 counterexample: with the literal cwd template of the claim and
WorktreeRoot bound to /repo, the produced spawn record has cwd none
(the reference $WorktreeRoot does not name the rendered environment key
ZED_WORKTREE_ROOT, so substitution fails and the cwd falls back to the
absent context cwd), not /repo/build. -/
theorem prepare_exec_worktree_template_cex :
    (c3Template.prepare_exec c3Context).map SpawnInTerminal.cwd = some none
    ∧ (c3Template.prepare_exec c3Context).map SpawnInTerminal.cwd ≠ some (some "/repo/build") := by
  decide

/-- C3 amended: with the cwd template built from the template value of
WorktreeRoot, that is $ZED_WORKTREE_ROOT/build, and WorktreeRoot bound
to /repo, prepare yields a spawn record whose cwd is /repo/build. -/
theorem prepare_exec_worktree_template_amended :
    VariableName.WorktreeRoot.template_value ++ "/build" = "$ZED_WORKTREE_ROOT/build"
    ∧ (c3TemplateAmended.prepare_exec c3Context).map SpawnInTerminal.cwd =
        some (some "/repo/build") := by
  decide

/-- C4: when the definition has no cwd template, the prepared spawn
record takes the context cwd as fallback. -/
theorem prepare_exec_cwd_fallback_of_none (t : TaskTemplate) (cx : TaskContext)
    (h : t.definition.cwd = none) :
    (t.prepare_exec cx).map SpawnInTerminal.cwd = some cx.cwd := by
  rw [prepare_exec_cwd_eq, h]
  rfl

/-- Witness for C4: a template without cwd prepared in a context with
working directory /workdir spawns into /workdir. -/
theorem prepare_exec_cwd_fallback_of_none_witness :
    (c4Template.prepare_exec c4Context).map SpawnInTerminal.cwd = some (some "/workdir") :=
  prepare_exec_cwd_fallback_of_none c4Template c4Context rfl

/-- C5: the one-shot constructor sets id, label and command all
verbatim to the prompt, so identical prompts produce equal task ids. -/
theorem oneshot_verbatim_fields (p : String) :
    (TaskTemplate.oneshot p).id.val = p
    ∧ (TaskTemplate.oneshot p).definition.label = p
    ∧ (TaskTemplate.oneshot p).definition.command = p
    ∧ ∀ q, q = p → (TaskTemplate.oneshot q).id = (TaskTemplate.oneshot p).id := by
  refine ⟨rfl, rfl, rfl, ?_⟩
  intro q hq
  rw [hq]

/-- Witness for C5 at the prompt of the claim. -/
theorem oneshot_verbatim_fields_witness :
    (TaskTemplate.oneshot "make test").id.val = "make test"
    ∧ (TaskTemplate.oneshot "make test").id = (TaskTemplate.oneshot "make test").id :=
  ⟨(oneshot_verbatim_fields "make test").1,
   (oneshot_verbatim_fields "make test").2.2.2 "make test" rfl⟩

/-- C6: the rendering of variable names to environment keys is a total
function, hence deterministic, and no two distinct members of the six
closed variants render to the same key. -/
theorem to_environment_key_deterministic_and_injective :
    (∀ a b : VariableName, a = b → a.toString = b.toString)
    ∧ (∀ a b : VariableName, a.isClosedVariant = true → b.isClosedVariant = true →
        a.toString = b.toString → a = b) := by
  constructor
  · intro a b h
    rw [h]
  · intro a b ha hb h
    cases a <;> cases b <;>
      first
        | rfl
        | exact absurd ha Bool.false_ne_true
        | exact absurd hb Bool.false_ne_true
        | exact absurd h (by decide)

/-- Witness for C6 at concrete closed variants. -/
theorem to_environment_key_deterministic_and_injective_witness :
    VariableName.File.toString = VariableName.File.toString
    ∧ VariableName.Row = VariableName.Row :=
  ⟨to_environment_key_deterministic_and_injective.1 VariableName.File VariableName.File rfl,
   to_environment_key_deterministic_and_injective.2 VariableName.Row VariableName.Row rfl rfl rfl⟩

/-- C7: extending a container with another equals folding the insert
operation over the pairs of the second onto the first, and insert
returns exactly the previous binding of the key: some previous value
when the key already existed, none otherwise. -/
theorem insert_extend_fold_contract :
    (∀ a b : TaskVariables,
        a.extend b = b.entries.foldl (fun m kv => (m.insert kv.1 kv.2).2) a)
    ∧ (∀ (tv : TaskVariables) (k : VariableName) (v : String),
        (tv.insert k v).1 = alLookup tv.entries k
        ∧ (((tv.insert k v).1).isSome ↔ ∃ w, (k, w) ∈ tv.entries)) := by
  constructor
  · intro a b
    obtain ⟨bl⟩ := b
    induction bl generalizing a with
    | nil => rfl
    | cons hd tl ih =>
      obtain ⟨k, v⟩ := hd
      have h1 : a.extend ⟨(k, v) :: tl⟩ =
          TaskVariables.extend ⟨alInsert a.entries k v⟩ ⟨tl⟩ := rfl
      rw [h1, ih]
      have h2 : (⟨alInsert a.entries k v⟩ : TaskVariables) = (a.insert k v).2 := by
        simp [TaskVariables.insert, alInsertRet_snd]
      rw [h2]
      rfl
  · intro tv k v
    have hfst : (tv.insert k v).1 = alLookup tv.entries k := by
      simp [TaskVariables.insert, alInsertRet_fst]
    refine ⟨hfst, ?_⟩
    rw [hfst]
    exact alLookup_isSome_iff_mem tv.entries k

/-- Witness for C7: inserting over an existing binding returns it. -/
theorem insert_extend_fold_contract_witness :
    (TaskVariables.insert ⟨[(VariableName.Row, "1")]⟩ VariableName.Row "2").1 =
      alLookup [(VariableName.Row, "1")] VariableName.Row :=
  (insert_extend_fold_contract.2 ⟨[(VariableName.Row, "1")]⟩ VariableName.Row "2").1

/-- C8: a partial definition record carrying only label and command
parses to a definition whose remaining fields are exactly the stated
defaults, and the derived default definition is that record with empty
label and command. -/
theorem definition_field_defaults (l c : String) :
    parseDefinition { label := some l, command := some c } =
      some
        { label := l
          command := c
          args := []
          env := []
          cwd := none
          use_new_terminal := false
          allow_concurrent_runs := false
          reveal := RevealStrategy.Always }
    ∧ Definition.default =
      { label := ""
        command := ""
        args := []
        env := []
        cwd := none
        use_new_terminal := false
        allow_concurrent_runs := false
        reveal := RevealStrategy.Always } :=
  ⟨rfl, rfl⟩

/-- C9: prepare_exec always returns a spawn record, and when the
substitution of a present cwd template fails, the cwd of that record
silently falls back to the context cwd. -/
theorem prepare_exec_always_some_silent_fallback (t : TaskTemplate) (cx : TaskContext) :
    (t.prepare_exec cx).isSome = true
    ∧ ∀ path, t.definition.cwd = some path →
        substitute path cx.task_variables.into_env_variables = none →
        (t.prepare_exec cx).map SpawnInTerminal.cwd = some cx.cwd := by
  refine ⟨rfl, ?_⟩
  intro path hp hsub
  rw [prepare_exec_cwd_eq, hp]
  show some ((substitute path cx.task_variables.into_env_variables).or cx.cwd) = some cx.cwd
  rw [hsub]
  rfl

/-- Witness for C9: a template referencing an absent variable still
spawns, into the context working directory. -/
theorem prepare_exec_always_some_silent_fallback_witness :
    (c9Template.prepare_exec c9Context).isSome = true
    ∧ (c9Template.prepare_exec c9Context).map SpawnInTerminal.cwd = some (some "/fb") :=
  ⟨(prepare_exec_always_some_silent_fallback c9Template c9Context).1,
   (prepare_exec_always_some_silent_fallback c9Template c9Context).2
     "$ZED_ABSENT" rfl (by decide)⟩

/-- C10: over the full variable type the key rendering is not
injective: the custom variable FILE and the File variant are distinct
yet share the key ZED_FILE, so rendering a two-entry container drops
one value, and the empty custom name renders to the bare reserved
ZED_ text. -/
theorem env_key_rendering_not_injective :
    VariableName.Custom "FILE" ≠ VariableName.File
    ∧ (VariableName.Custom "FILE").toString = VariableName.File.toString
    ∧ (VariableName.Custom "").toString = "ZED_"
    ∧ TaskVariables.into_env_variables
        ⟨[(VariableName.Custom "FILE", "a"), (VariableName.File, "b")]⟩ = [("ZED_FILE", "b")]
    ∧ (TaskVariables.into_env_variables
        ⟨[(VariableName.Custom "FILE", "a"), (VariableName.File, "b")]⟩).length = 1 := by
  decide
